import Mathlib

/- The Batteries rational arithmetic kernels are `@[irreducible]`, which
blocks `decide` from evaluating closed rational computations; the concrete
evaluations below need them unfolded. -/
attribute [local semireducible] Rat.add Rat.sub Rat.mul Rat.inv

/-!
Verification of the ACS sensor-fusion core (acs-sim).

Shallow embedding of the C sources `bessel.c`, `acs-datagen.h` (with
`macros.h` and `bessel.h`).  Modelling conventions:

* C `float`/`double` values are modelled by `Flt`: exact rationals plus the
  IEEE special values NaN, +Inf and -Inf.  Arithmetic on finite values is
  exact rational arithmetic (no rounding, no overflow); the special values
  follow the IEEE rules (Inf - Inf = NaN, 0 * Inf = NaN, x/0 = +-Inf or NaN,
  NaN propagates, comparisons with NaN are false).  Signed zero is collapsed
  to 0.
* Machine integers are `Int`/`Nat`; the index arithmetic of the C code never
  overflows its types (indices stay in [-1, 63]).
* Buffers declared with `DECLARE_BUFFER` (three arrays of SH_BUFFER_SIZE = 64
  scalars) are modelled as total functions `Int -> Flt`; the zero-initialised
  C globals give the all-zero function.  The C out-of-bounds read
  `x_g_W[-1]` (fault check before any omega write) reads `fin 0` in this
  model.
* The HITL synthetic sample generator (`sin`/`cos`/`rand` of `tnow`,
  acs-datagen.h lines 246-258) is abstracted as the per-cycle raw `Sample`
  input, following the spec's Sensor Source interface; everything the
  pipeline does with the sample is embedded from the source.
-/

/-- Model of a C floating point value: exact finite rational, NaN, or a
signed infinity. -/
inductive Flt where
  | fin (q : ℚ)
  | nan
  | inf
  | ninf
deriving DecidableEq, Repr

namespace Flt

/-- IEEE addition on the model (finite part exact). -/
def add : Flt → Flt → Flt
  | nan, _ => nan
  | fin _, nan => nan
  | inf, nan => nan
  | ninf, nan => nan
  | fin a, fin b => fin (a + b)
  | fin _, inf => inf
  | fin _, ninf => ninf
  | inf, fin _ => inf
  | ninf, fin _ => ninf
  | inf, inf => inf
  | inf, ninf => nan
  | ninf, inf => nan
  | ninf, ninf => ninf

/-- IEEE negation on the model. -/
def neg : Flt → Flt
  | nan => nan
  | inf => ninf
  | ninf => inf
  | fin a => fin (-a)

/-- IEEE subtraction, x - y = x + (-y). -/
def sub (a b : Flt) : Flt := add a (neg b)

/-- IEEE multiplication on the model (finite part exact). -/
def mul : Flt → Flt → Flt
  | nan, _ => nan
  | fin _, nan => nan
  | inf, nan => nan
  | ninf, nan => nan
  | fin a, fin b => fin (a * b)
  | inf, fin b => if b = 0 then nan else if 0 < b then inf else ninf
  | ninf, fin b => if b = 0 then nan else if 0 < b then ninf else inf
  | fin a, inf => if a = 0 then nan else if 0 < a then inf else ninf
  | fin a, ninf => if a = 0 then nan else if 0 < a then ninf else inf
  | inf, inf => inf
  | inf, ninf => ninf
  | ninf, inf => ninf
  | ninf, ninf => inf

/-- IEEE division on the model (finite part exact; division by zero gives a
signed infinity, or NaN for 0/0; signed zero is collapsed). -/
def div : Flt → Flt → Flt
  | nan, _ => nan
  | fin _, nan => nan
  | inf, nan => nan
  | ninf, nan => nan
  | fin a, fin b =>
      if b = 0 then (if a = 0 then nan else if 0 < a then inf else ninf)
      else fin (a / b)
  | fin _, inf => fin 0
  | fin _, ninf => fin 0
  | inf, fin b => if 0 ≤ b then inf else ninf
  | ninf, fin b => if 0 ≤ b then ninf else inf
  | inf, inf => nan
  | inf, ninf => nan
  | ninf, inf => nan
  | ninf, ninf => nan

instance : Add Flt := ⟨add⟩
instance : Sub Flt := ⟨sub⟩
instance : Mul Flt := ⟨mul⟩
instance : Div Flt := ⟨div⟩
instance : Neg Flt := ⟨neg⟩

/-- C `isnan`. -/
def isnan : Flt → Bool
  | nan => true
  | _ => false

/-- C `<` comparison: any comparison with NaN is false. -/
def blt : Flt → Flt → Bool
  | nan, _ => false
  | _, nan => false
  | fin a, fin b => decide (a < b)
  | ninf, ninf => false
  | ninf, _ => true
  | _, ninf => false
  | inf, _ => false
  | fin _, inf => true

/-- Floor-based rational square root: sqrt(n/d) ~ floor(sqrt(n*d))/d.
Models the C library `sqrt` on finite arguments; it is exact at 0 and at
perfect squares, which is all the theorems below rely on. -/
def ratSqrt (q : ℚ) : ℚ := (Nat.sqrt (q.num.toNat * q.den) : ℚ) / (q.den : ℚ)

/-- C library `sqrt` on the model. -/
def sqrt : Flt → Flt
  | nan => nan
  | ninf => nan
  | inf => inf
  | fin q => if q < 0 then nan else fin (ratSqrt q)

end Flt

/-!  ## macros.h: q2isqrt and NORMALIZE

`q2isqrt` (macros.h, bit-level version, the default since the Makefile does
not define MATH_SQRT) reinterprets the float's bits.  We model the IEEE-754
single-precision bit encoding/decoding exactly; the rounding convention of
the total encoder follows Mathlib's `round` (ties away from zero), a
modelling concession that the theorems below never exercise: they only rely
on the encoder at exactly representable inputs (the input 0). -/

/-- Decode an IEEE-754 single-precision bit pattern into the model. -/
def decodeF32 (b : ℕ) : Flt :=
  let s : ℕ := b / 2 ^ 31 % 2
  let e : ℕ := b / 2 ^ 23 % 2 ^ 8
  let m : ℕ := b % 2 ^ 23
  if e = 255 then
    (if m = 0 then (if s = 1 then Flt.ninf else Flt.inf) else Flt.nan)
  else if e = 0 then
    Flt.fin ((if s = 1 then (-1 : ℚ) else 1) * (m : ℚ) / 2 ^ 149)
  else
    Flt.fin ((if s = 1 then (-1 : ℚ) else 1) * ((2 ^ 23 + m : ℕ) : ℚ)
      * (2 : ℚ) ^ ((e : ℤ) - 150))

/-- Encode a model value as an IEEE-754 single-precision bit pattern
(round to nearest, ties handled by Mathlib `round`). -/
def encodeF32 (x : Flt) : ℕ :=
  match x with
  | .nan => 0x7fc00000
  | .inf => 0x7f800000
  | .ninf => 0xff800000
  | .fin q =>
    if q = 0 then 0
    else
      let s : ℕ := if q < 0 then 0x80000000 else 0
      let a : ℚ := |q|
      let e : ℤ := Int.log 2 a
      if 127 < e then s + 0x7f800000
      else if e < -126 then
        let m : ℤ := round (a * 2 ^ (149 : ℕ))
        if 2 ^ 23 ≤ m then s + 0x00800000 else s + m.toNat
      else
        let m : ℤ := round (a * (2 : ℚ) ^ ((23 : ℤ) - e))
        if 2 ^ 24 ≤ m then
          (if 127 < e + 1 then s + 0x7f800000
           else s + ((e + 1 + 127).toNat <<< 23))
        else s + ((e + 127).toNat <<< 23) + (m.toNat - 2 ^ 23)

/-- macros.h `q2isqrt` (bit-level version, used when MATH_SQRT is not
defined, as in this repository's build): initial guess
`i = 0x5f375a86 - (i >> 1)` followed by three Newton-Raphson rounds. -/
def q2isqrt (x : Flt) : Flt :=
  let xhalf := x * Flt.fin (1 / 2)
  let bits := encodeF32 x
  let i : ℕ := (((0x5f375a86 : ℤ) - ((bits >>> 1 : ℕ) : ℤ)) % 2 ^ 32).toNat
  let x1 := decodeF32 i
  let x2 := x1 * (Flt.fin (3 / 2) - xhalf * x1 * x1)
  let x3 := x2 * (Flt.fin (3 / 2) - xhalf * x2 * x2)
  let x4 := x3 * (Flt.fin (3 / 2) - xhalf * x3 * x3)
  x4

/-- macros.h `q2isqrt` (library version, compiled when MATH_SQRT is
defined): `1.0 / sqrt(x)`. -/
def q2isqrtMath (x : Flt) : Flt := Flt.fin 1 / Flt.sqrt x

/-- macros.h `NORMALIZE(dest, s1)` with the bit-level `q2isqrt`:
`sh__temp = q2isqrt(NORM2(s1))`; the destination is written (as
`s1 * sh__temp`) only when `sh__temp != 0` (a C float compare, true for
NaN), otherwise the destination keeps its previous value. -/
def NORMALIZE (dx dy dz sx sy sz : Flt) : Flt × Flt × Flt :=
  let temp := q2isqrt (sx * sx + sy * sy + sz * sz)
  if temp ≠ Flt.fin 0 then (sx * temp, sy * temp, sz * temp) else (dx, dy, dz)

/-- macros.h `NORMALIZE(dest, s1)` with the MATH_SQRT (library) `q2isqrt`. -/
def NORMALIZE_MATH (dx dy dz sx sy sz : Flt) : Flt × Flt × Flt :=
  let temp := q2isqrtMath (sx * sx + sy * sy + sz * sz)
  if temp ≠ Flt.fin 0 then (sx * temp, sy * temp, sz * temp) else (dx, dy, dz)

/-!  ## bessel.c  -/

/-- bessel.c `factorial` (the loop multiplies `i * (i-1) * ... * 1`). -/
def cFactorial : ℕ → ℚ
  | 0 => 1
  | n + 1 => ((n + 1 : ℕ) : ℚ) * cFactorial n

/-- bessel.c line 48: numeric coefficient `i` of the reverse Bessel
polynomial of the given order,
`factorial(2*order - i) / ((1 << (order - i)) * factorial(i) * factorial(order - i))`. -/
def besselNumCoeff (order i : ℕ) : ℚ :=
  cFactorial (2 * order - i) /
    (((2 ^ (order - i) : ℕ) : ℚ) * cFactorial i * cFactorial (order - i))

/-- bessel.c lines 53-59: the inner loop evaluating the transfer polynomial,
carrying the running value and the running power of `j / freq_cutoff`. -/
def transferGo (cs : List ℚ) (s val pow : ℚ) : ℚ :=
  match cs with
  | [] => val
  | c :: rest => transferGo rest s (val + c * pow) (pow * s)

/-- bessel.c `calculateBessel(arr, size, order, freq_cutoff)`: clamps the
order to 5, computes the numeric coefficients, and sets
`arr[j] = coeff[0] / T(j / freq_cutoff)` for `j < size`.  The result is the
coefficient array as a total function (0 outside the written range). -/
def calculateBessel (size order : ℕ) (freq_cutoff : ℚ) : ℕ → ℚ :=
  let order := min order 5
  let cs := (List.range (order + 1)).map (besselNumCoeff order)
  fun j =>
    if j < size then
      besselNumCoeff order 0 / transferGo cs ((j : ℚ) / freq_cutoff) 0 1
    else 0

/-- Result of one run of the filter loop of `dfilterBessel`/`ffilterBessel`:
the accumulated weighted value, the accumulated coefficient sum, and the
trace of the data-array and coefficient-array indices read (in order). -/
structure BesselRun where
  val : Flt
  coeff_sum : ℚ
  arrReads : List ℤ
  coeffReads : List ℕ
deriving Repr, DecidableEq

/-- The loop of bessel.c `dfilterBessel`/`ffilterBessel` (lines 72-82 /
92-102).  Each iteration adds `bessel_coeff[coeff_index] * arr[i]`, sums the
coefficient, steps `i` backwards with wraparound, and breaks when
`i == index`, or (short-circuit: only then is `bessel_coeff[coeff_index]`
read again) when the coefficient falls below BESSEL_MIN_THRESHOLD = 0.001 or
`coeff_index > SH_BUFFER_SIZE`.  The `fuel` argument makes the recursion
structural; the `coeff_index > 64` break bounds the iteration count by 65,
so with fuel 65 the fuel-exhaustion branch is unreachable. -/
def besselGo (K : ℕ → ℚ) (arr : ℤ → Flt) (index : ℤ) :
    ℕ → ℤ → ℕ → Flt → ℚ → List ℤ → List ℕ → BesselRun
  | fuel, i, ci, val, sum, ar, cr =>
    let val2 := val + Flt.fin (K ci) * arr i
    let sum2 := sum + K ci
    let ar2 := ar ++ [i]
    let cr2 := cr ++ [ci]
    let i2 : ℤ := if i - 1 < 0 then 63 else i - 1
    let ci2 := ci + 1
    if i2 = index then ⟨val2, sum2, ar2, cr2⟩
    else
      let cr3 := cr2 ++ [ci2]
      if K ci2 < 1 / 1000 ∨ 64 < ci2 then ⟨val2, sum2, ar2, cr3⟩
      else
        match fuel with
        | 0 => ⟨val2, sum2, ar2, cr3⟩
        | fuel2 + 1 => besselGo K arr index fuel2 i2 ci2 val2 sum2 ar2 cr3

/-- The full loop run of a filter application starting at `index`
(value, coefficient sum and read traces). -/
def besselTrace (K : ℕ → ℚ) (arr : ℤ → Flt) (index : ℤ) : BesselRun :=
  besselGo K arr index 65 index 0 (Flt.fin 0) 0 [] []

/-- bessel.c `dfilterBessel(arr, index)`: the weighted causal average
`val / coeff_sum`.  The global `bessel_coeff` array is passed as `K`. -/
def dfilterBessel (K : ℕ → ℚ) (arr : ℤ → Flt) (index : ℤ) : Flt :=
  (besselTrace K arr index).val / Flt.fin (besselTrace K arr index).coeff_sum

/-- bessel.c `ffilterBessel(arr, index)`: identical loop in single
precision; in the exact model it coincides with `dfilterBessel`. -/
def ffilterBessel (K : ℕ → ℚ) (arr : ℤ → Flt) (index : ℤ) : Flt :=
  (besselTrace K arr index).val / Flt.fin (besselTrace K arr index).coeff_sum

/-- The coefficient array the program installs at startup:
datavis.c line 44, `calculateBessel(bessel_coeff, SH_BUFFER_SIZE, 3,
BESSEL_FREQ_CUTOFF)` with SH_BUFFER_SIZE = 64 and BESSEL_FREQ_CUTOFF = 5. -/
def progCoeff : ℕ → ℚ := calculateBessel 64 3 5

/-!  ## acs-datagen.h: global state and the per-cycle pipeline  -/

/-- The globals of acs-datagen.h used by the pipeline: the installed Bessel
coefficient array, the four circular vector buffers (per-axis arrays as in
`DECLARE_BUFFER`), the CSS lux array, the buffer cursors (-1 = uninitiated),
the four buffer-full indicators, the night flag and the cycle counter. -/
structure ACSState where
  coeff : ℕ → ℚ
  x_g_W : ℤ → Flt
  y_g_W : ℤ → Flt
  z_g_W : ℤ → Flt
  x_g_B : ℤ → Flt
  y_g_B : ℤ → Flt
  z_g_B : ℤ → Flt
  x_g_Bt : ℤ → Flt
  y_g_Bt : ℤ → Flt
  z_g_Bt : ℤ → Flt
  x_g_S : ℤ → Flt
  y_g_S : ℤ → Flt
  z_g_S : ℤ → Flt
  g_CSS : ℕ → Flt
  mag_index : ℤ
  bdot_index : ℤ
  omega_index : ℤ
  sol_index : ℤ
  B_full : ℤ
  Bdot_full : ℤ
  W_full : ℤ
  S_full : ℤ
  g_night : ℕ
  acs_ct : ℕ

/-- One raw sample from the Sensor Source: the magnetometer triple
(`mag_measure[0..2]`) and the three independently generated CSS channels
(`g_CSS[0]`, `g_CSS[2]`, `g_CSS[4]`); acs-datagen.h lines 253, 255, 257-258
derive the remaining four channels from these. -/
structure Sample where
  mx : Flt
  my : Flt
  mz : Flt
  c0 : Flt
  c2 : Flt
  c4 : Flt

/-- acs-datagen.h `getOmega` (lines 157-183): gate on
`mag_index < 2 && B_full == 0`; set `W_full` when the cursor is about to
wrap; advance `omega_index`; compute
`g_W[omega_index] = cross(g_Bt[m1], g_Bt[m0]) * (freq / NORM2(g_Bt[m0]))`
with `freq = 1e6 / DETUMBLE_TIME_STEP = 10`; apply the float Bessel filter
in place (the inertia correction term is commented out in the source). -/
def getOmega (st : ACSState) : ACSState :=
  if st.mag_index < 2 ∧ st.B_full = 0 then st
  else
    let st := if st.omega_index = 63 then { st with W_full := 1 } else st
    let st := { st with omega_index := (1 + st.omega_index) % 64 }
    let m1 := st.bdot_index
    let m0 := if st.bdot_index - 1 < 0 then 64 - st.bdot_index - 1
              else st.bdot_index - 1
    let freq : ℚ := 1000000 / 100000
    let st := { st with
      x_g_W := Function.update st.x_g_W st.omega_index
        (st.y_g_Bt m1 * st.z_g_Bt m0 - st.z_g_Bt m1 * st.y_g_Bt m0),
      y_g_W := Function.update st.y_g_W st.omega_index
        (st.z_g_Bt m1 * st.x_g_Bt m0 - st.x_g_Bt m1 * st.z_g_Bt m0),
      z_g_W := Function.update st.z_g_W st.omega_index
        (st.x_g_Bt m1 * st.y_g_Bt m0 - st.y_g_Bt m1 * st.x_g_Bt m0) }
    let norm2 := st.x_g_Bt m0 * st.x_g_Bt m0 + st.y_g_Bt m0 * st.y_g_Bt m0
      + st.z_g_Bt m0 * st.z_g_Bt m0
    let sc := Flt.fin freq / norm2
    let st := { st with
      x_g_W := Function.update st.x_g_W st.omega_index
        (st.x_g_W st.omega_index * sc),
      y_g_W := Function.update st.y_g_W st.omega_index
        (st.y_g_W st.omega_index * sc),
      z_g_W := Function.update st.z_g_W st.omega_index
        (st.z_g_W st.omega_index * sc) }
    let st := { st with
      x_g_W := Function.update st.x_g_W st.omega_index
        (ffilterBessel st.coeff st.x_g_W st.omega_index) }
    let st := { st with
      y_g_W := Function.update st.y_g_W st.omega_index
        (ffilterBessel st.coeff st.y_g_W st.omega_index) }
    let st := { st with
      z_g_W := Function.update st.z_g_W st.omega_index
        (ffilterBessel st.coeff st.z_g_W st.omega_index) }
    st

/-- acs-datagen.h `getSVec` (lines 185-230): set `S_full` when the cursor is
about to wrap; advance `sol_index`; average the two -Z CSS channels; write
the differential lux vector; if its norm is below
CSS_MIN_LUX_THRESHOLD = 500 set the night flag and clear the slot, else
clear the night flag and normalize the slot in place. -/
def getSVec (st : ACSState) : ACSState :=
  let st := if st.sol_index = 63 then { st with S_full := 1 } else st
  let st := { st with sol_index := (st.sol_index + 1) % 64 }
  let znavg := (Flt.fin 0 + st.g_CSS 5 + st.g_CSS 6) * Flt.fin (1 / 2)
  let st := { st with
    x_g_S := Function.update st.x_g_S st.sol_index (st.g_CSS 0 - st.g_CSS 1),
    y_g_S := Function.update st.y_g_S st.sol_index (st.g_CSS 2 - st.g_CSS 3),
    z_g_S := Function.update st.z_g_S st.sol_index (st.g_CSS 4 - znavg) }
  let css_mag := Flt.sqrt (st.x_g_S st.sol_index * st.x_g_S st.sol_index
    + st.y_g_S st.sol_index * st.y_g_S st.sol_index
    + st.z_g_S st.sol_index * st.z_g_S st.sol_index)
  if css_mag.blt (Flt.fin 500) then
    { st with
      g_night := 1,
      x_g_S := Function.update st.x_g_S st.sol_index (Flt.fin 0),
      y_g_S := Function.update st.y_g_S st.sol_index (Flt.fin 0),
      z_g_S := Function.update st.z_g_S st.sol_index (Flt.fin 0) }
  else
    let n := NORMALIZE (st.x_g_S st.sol_index) (st.y_g_S st.sol_index)
      (st.z_g_S st.sol_index) (st.x_g_S st.sol_index) (st.y_g_S st.sol_index)
      (st.z_g_S st.sol_index)
    { st with
      g_night := 0,
      x_g_S := Function.update st.x_g_S st.sol_index n.1,
      y_g_S := Function.update st.y_g_S st.sol_index n.2.1,
      z_g_S := Function.update st.z_g_S st.sol_index n.2.2 }

/-- acs-datagen.h `readSensors`, first block (lines 238-270): bump the cycle
counter, set `B_full` when the field cursor is about to wrap, advance
`mag_index`, clear the slot, store the CSS channels from the sample
(lines 252-258), compute the unused `mag_val` local (lines 260-266), write
the raw magnetometer triple into `g_B[mag_index]` and apply the double
Bessel filter in place. -/
def readSensorsIngest (st : ACSState) (s : Sample) : ACSState :=
  let st := { st with acs_ct := st.acs_ct + 1 }
  let st := if st.mag_index = 63 then { st with B_full := 1 } else st
  let st := { st with mag_index := (st.mag_index + 1) % 64 }
  let st := { st with
    x_g_B := Function.update st.x_g_B st.mag_index (Flt.fin 0),
    y_g_B := Function.update st.y_g_B st.mag_index (Flt.fin 0),
    z_g_B := Function.update st.z_g_B st.mag_index (Flt.fin 0) }
  let st := { st with g_CSS := fun i =>
    match i with
    | 0 => s.c0
    | 1 => Flt.neg s.c0
    | 2 => s.c2
    | 3 => Flt.neg s.c2
    | 4 => s.c4
    | 5 => Flt.neg s.c4
    | 6 => Flt.neg s.c4
    | _ => Flt.fin 0 }
  let _magval := (fun t : Flt × Flt × Flt =>
    (t.1 * Flt.fin 600, t.2.1 * Flt.fin 600, t.2.2 * Flt.fin 600))
    (NORMALIZE (Flt.fin 0) (Flt.fin 0) (Flt.fin 0) s.mx s.my s.mz)
  let st := { st with
    x_g_B := Function.update st.x_g_B st.mag_index s.mx,
    y_g_B := Function.update st.y_g_B st.mag_index s.my,
    z_g_B := Function.update st.z_g_B st.mag_index s.mz }
  let st := { st with
    x_g_B := Function.update st.x_g_B st.mag_index
      (dfilterBessel st.coeff st.x_g_B st.mag_index) }
  let st := { st with
    y_g_B := Function.update st.y_g_B st.mag_index
      (dfilterBessel st.coeff st.y_g_B st.mag_index) }
  let st := { st with
    z_g_B := Function.update st.z_g_B st.mag_index
      (dfilterBessel st.coeff st.z_g_B st.mag_index) }
  st

/-- acs-datagen.h `readSensors`, Bdot block (lines 277-287): when the Bdot
cursor is about to wrap the source sets `B_full` (sic - not `Bdot_full`);
advance `bdot_index`; compute
`g_Bt[bdot_index] = (g_B[m1] - g_B[m0]) * freq` and apply the double Bessel
filter in place. -/
def bdotUpdate (st : ACSState) : ACSState :=
  let st := if st.bdot_index = 63 then { st with B_full := 1 } else st
  let st := { st with bdot_index := (st.bdot_index + 1) % 64 }
  let m1 := st.mag_index
  let m0 := if st.mag_index - 1 < 0 then 64 - st.mag_index - 1
            else st.mag_index - 1
  let freq : ℚ := 1000000 / 100000
  let st := { st with
    x_g_Bt := Function.update st.x_g_Bt st.bdot_index
      (st.x_g_B m1 - st.x_g_B m0),
    y_g_Bt := Function.update st.y_g_Bt st.bdot_index
      (st.y_g_B m1 - st.y_g_B m0),
    z_g_Bt := Function.update st.z_g_Bt st.bdot_index
      (st.z_g_B m1 - st.z_g_B m0) }
  let st := { st with
    x_g_Bt := Function.update st.x_g_Bt st.bdot_index
      (st.x_g_Bt st.bdot_index * Flt.fin freq),
    y_g_Bt := Function.update st.y_g_Bt st.bdot_index
      (st.y_g_Bt st.bdot_index * Flt.fin freq),
    z_g_Bt := Function.update st.z_g_Bt st.bdot_index
      (st.z_g_Bt st.bdot_index * Flt.fin freq) }
  let st := { st with
    x_g_Bt := Function.update st.x_g_Bt st.bdot_index
      (dfilterBessel st.coeff st.x_g_Bt st.bdot_index) }
  let st := { st with
    y_g_Bt := Function.update st.y_g_Bt st.bdot_index
      (dfilterBessel st.coeff st.y_g_Bt st.bdot_index) }
  let st := { st with
    z_g_Bt := Function.update st.z_g_Bt st.bdot_index
      (dfilterBessel st.coeff st.z_g_Bt st.bdot_index) }
  st

/-- acs-datagen.h lines 292-315: the end-of-cycle fault check.  Nine
sequential `isnan` tests on the freshly indexed field, angular-velocity and
sun-vector components, each returning -1; otherwise the running `status`
(1) is returned.  Note the field-rate buffer `g_Bt` is not tested, and
`isnan` does not flag infinities. -/
def nanChecks (st : ACSState) : ℤ :=
  if (st.x_g_B st.mag_index).isnan then -1
  else if (st.y_g_B st.mag_index).isnan then -1
  else if (st.z_g_B st.mag_index).isnan then -1
  else if (st.x_g_W st.omega_index).isnan then -1
  else if (st.y_g_W st.omega_index).isnan then -1
  else if (st.z_g_W st.omega_index).isnan then -1
  else if (st.x_g_S st.sol_index).isnan then -1
  else if (st.y_g_S st.sol_index).isnan then -1
  else if (st.z_g_S st.sol_index).isnan then -1
  else 1

/-- acs-datagen.h `readSensors` (lines 232-316): ingest the sample; if
`mag_index < 1 && B_full == 0` return `status` (= 1) early; otherwise run
the Bdot block, `getOmega`, `getSVec`, and the NaN fault check.  Returns
the new state together with the C return value. -/
def readSensors (st : ACSState) (s : Sample) : ACSState × ℤ :=
  let st1 := readSensorsIngest st s
  if st1.mag_index < 1 ∧ st1.B_full = 0 then (st1, 1)
  else
    let st2 := getSVec (getOmega (bdotUpdate st1))
    (st2, nanChecks st2)

/-- The process-start state: zero-initialised C globals, cursors -1, full
flags 0, with the Bessel coefficients installed by datavis.c `main`
(order 3, cutoff 5) before the first `readSensors` call. -/
def initState : ACSState where
  coeff := progCoeff
  x_g_W := fun _ => Flt.fin 0
  y_g_W := fun _ => Flt.fin 0
  z_g_W := fun _ => Flt.fin 0
  x_g_B := fun _ => Flt.fin 0
  y_g_B := fun _ => Flt.fin 0
  z_g_B := fun _ => Flt.fin 0
  x_g_Bt := fun _ => Flt.fin 0
  y_g_Bt := fun _ => Flt.fin 0
  z_g_Bt := fun _ => Flt.fin 0
  x_g_S := fun _ => Flt.fin 0
  y_g_S := fun _ => Flt.fin 0
  z_g_S := fun _ => Flt.fin 0
  g_CSS := fun _ => Flt.fin 0
  mag_index := -1
  bdot_index := -1
  omega_index := -1
  sol_index := -1
  B_full := 0
  Bdot_full := 0
  W_full := 0
  S_full := 0
  g_night := 0
  acs_ct := 0

/-- The state after `k` consecutive `readSensors` cycles fed by the sample
stream `s`, starting from the fresh process state. -/
def runCycles (s : ℕ → Sample) : ℕ → ACSState
  | 0 => initState
  | k + 1 => (readSensors (runCycles s (k)) (s k)).1

/-- The all-zero sample (dark, null field). -/
def zeroSample : Sample := ⟨Flt.fin 0, Flt.fin 0, Flt.fin 0,
  Flt.fin 0, Flt.fin 0, Flt.fin 0⟩

/-- The all-zero sample stream. -/
def zeroStream : ℕ → Sample := fun _ => zeroSample

/-- A deterministic stream whose field x-component doubles every cycle
(1, 2, 4, ...), dark CSS channels; its field-rate samples are collinear and
never near-null once priming is done. -/
def growStream : ℕ → Sample := fun k =>
  ⟨Flt.fin (2 ^ k), Flt.fin 0, Flt.fin 0, Flt.fin 0, Flt.fin 0, Flt.fin 0⟩

/-- A state like the one after a first cycle, except that the stored field
x-sample at slot 0 is +Inf: the cursor sits at slot 0 and the buffers are
otherwise zero.  Feeding one more zero sample makes the freshly written
field-rate x-component Inf - Inf = NaN while every component the fault
check inspects stays NaN-free. -/
def nanPoisonState : ACSState :=
  { initState with
    mag_index := 0,
    x_g_B := Function.update (fun _ => Flt.fin 0) 0 Flt.inf }

/-- The identity kernel (weight 1 at position 0, then 0): with it the
filter walk stops after one step and returns the current sample, so
smoothing is disabled as the spec's estimator test requires. -/
def idKernel : ℕ → ℚ := fun j => if j = 0 then 1 else 0

/-- The estimator test state of claim C6: identity kernel, enough field
history to pass the gate (`mag_index = 2`), and the two most recent
field-rate samples `g_Bt[0] = (0,0,1)` (previous) and `g_Bt[1] = (1,0,0)`
(current). -/
def bdotTestState : ACSState :=
  { initState with
    coeff := idKernel,
    mag_index := 2,
    bdot_index := 1,
    omega_index := 0,
    x_g_Bt := Function.update (fun _ => Flt.fin 0) 1 (Flt.fin 1),
    z_g_Bt := Function.update (fun _ => Flt.fin 0) 0 (Flt.fin 1) }

/-- The early-return condition of `readSensors` (line 274) in terms of the
pre-state: `mag_index < 1 && B_full == 0` evaluated after the ingest
block. -/
def primingReturn (st : ACSState) (s : Sample) : Prop :=
  (readSensorsIngest st s).mag_index < 1 ∧ (readSensorsIngest st s).B_full = 0

instance (st : ACSState) (s : Sample) : Decidable (primingReturn st s) := by
  unfold primingReturn; infer_instance

/-!  ## Scalar (cursor and flag) projections of the pipeline steps  -/

theorem readSensorsIngest_mag_index (st : ACSState) (s : Sample) :
    (readSensorsIngest st s).mag_index = (st.mag_index + 1) % 64 := by
  simp only [readSensorsIngest]; split <;> rfl

theorem readSensorsIngest_B_full (st : ACSState) (s : Sample) :
    (readSensorsIngest st s).B_full =
      (if st.mag_index = 63 then 1 else st.B_full) := by
  simp only [readSensorsIngest]; split <;> rfl

theorem readSensorsIngest_bdot_index (st : ACSState) (s : Sample) :
    (readSensorsIngest st s).bdot_index = st.bdot_index := by
  simp only [readSensorsIngest]; split <;> rfl

theorem readSensorsIngest_omega_index (st : ACSState) (s : Sample) :
    (readSensorsIngest st s).omega_index = st.omega_index := by
  simp only [readSensorsIngest]; split <;> rfl

theorem readSensorsIngest_sol_index (st : ACSState) (s : Sample) :
    (readSensorsIngest st s).sol_index = st.sol_index := by
  simp only [readSensorsIngest]; split <;> rfl

theorem readSensorsIngest_Bdot_full (st : ACSState) (s : Sample) :
    (readSensorsIngest st s).Bdot_full = st.Bdot_full := by
  simp only [readSensorsIngest]; split <;> rfl

theorem readSensorsIngest_W_full (st : ACSState) (s : Sample) :
    (readSensorsIngest st s).W_full = st.W_full := by
  simp only [readSensorsIngest]; split <;> rfl

theorem readSensorsIngest_S_full (st : ACSState) (s : Sample) :
    (readSensorsIngest st s).S_full = st.S_full := by
  simp only [readSensorsIngest]; split <;> rfl

theorem bdotUpdate_mag_index (st : ACSState) :
    (bdotUpdate st).mag_index = st.mag_index := by
  simp only [bdotUpdate]; split <;> rfl

theorem bdotUpdate_B_full (st : ACSState) :
    (bdotUpdate st).B_full = (if st.bdot_index = 63 then 1 else st.B_full) := by
  simp only [bdotUpdate]; split <;> rfl

theorem bdotUpdate_bdot_index (st : ACSState) :
    (bdotUpdate st).bdot_index = (st.bdot_index + 1) % 64 := by
  simp only [bdotUpdate]; split <;> rfl

theorem bdotUpdate_omega_index (st : ACSState) :
    (bdotUpdate st).omega_index = st.omega_index := by
  simp only [bdotUpdate]; split <;> rfl

theorem bdotUpdate_sol_index (st : ACSState) :
    (bdotUpdate st).sol_index = st.sol_index := by
  simp only [bdotUpdate]; split <;> rfl

theorem bdotUpdate_Bdot_full (st : ACSState) :
    (bdotUpdate st).Bdot_full = st.Bdot_full := by
  simp only [bdotUpdate]; split <;> rfl

theorem bdotUpdate_W_full (st : ACSState) :
    (bdotUpdate st).W_full = st.W_full := by
  simp only [bdotUpdate]; split <;> rfl

theorem bdotUpdate_S_full (st : ACSState) :
    (bdotUpdate st).S_full = st.S_full := by
  simp only [bdotUpdate]; split <;> rfl

theorem getOmega_mag_index (st : ACSState) :
    (getOmega st).mag_index = st.mag_index := by
  simp only [getOmega]; split <;> [rfl; (split <;> rfl)]

theorem getOmega_B_full (st : ACSState) :
    (getOmega st).B_full = st.B_full := by
  simp only [getOmega]; split <;> [rfl; (split <;> rfl)]

theorem getOmega_bdot_index (st : ACSState) :
    (getOmega st).bdot_index = st.bdot_index := by
  simp only [getOmega]; split <;> [rfl; (split <;> rfl)]

theorem getOmega_omega_index (st : ACSState) :
    (getOmega st).omega_index =
      (if st.mag_index < 2 ∧ st.B_full = 0 then st.omega_index
       else (1 + st.omega_index) % 64) := by
  simp only [getOmega]; split <;> [rfl; (split <;> rfl)]

theorem getOmega_sol_index (st : ACSState) :
    (getOmega st).sol_index = st.sol_index := by
  simp only [getOmega]; split <;> [rfl; (split <;> rfl)]

theorem getOmega_Bdot_full (st : ACSState) :
    (getOmega st).Bdot_full = st.Bdot_full := by
  simp only [getOmega]; split <;> [rfl; (split <;> rfl)]

theorem getOmega_W_full (st : ACSState) :
    (getOmega st).W_full =
      (if st.mag_index < 2 ∧ st.B_full = 0 then st.W_full
       else if st.omega_index = 63 then 1 else st.W_full) := by
  simp only [getOmega]; split <;> [rfl; (split <;> rfl)]

theorem getOmega_S_full (st : ACSState) :
    (getOmega st).S_full = st.S_full := by
  simp only [getOmega]; split <;> [rfl; (split <;> rfl)]

theorem getSVec_mag_index (st : ACSState) :
    (getSVec st).mag_index = st.mag_index := by
  simp only [getSVec]
  simp [apply_ite ACSState.mag_index]

theorem getSVec_B_full (st : ACSState) :
    (getSVec st).B_full = st.B_full := by
  simp only [getSVec]
  simp [apply_ite ACSState.B_full]

theorem getSVec_bdot_index (st : ACSState) :
    (getSVec st).bdot_index = st.bdot_index := by
  simp only [getSVec]
  simp [apply_ite ACSState.bdot_index]

theorem getSVec_omega_index (st : ACSState) :
    (getSVec st).omega_index = st.omega_index := by
  simp only [getSVec]
  simp [apply_ite ACSState.omega_index]

theorem getSVec_sol_index (st : ACSState) :
    (getSVec st).sol_index = (st.sol_index + 1) % 64 := by
  simp only [getSVec]
  simp [apply_ite ACSState.sol_index]

theorem getSVec_Bdot_full (st : ACSState) :
    (getSVec st).Bdot_full = st.Bdot_full := by
  simp only [getSVec]
  simp [apply_ite ACSState.Bdot_full]

theorem getSVec_W_full (st : ACSState) :
    (getSVec st).W_full = st.W_full := by
  simp only [getSVec]
  simp [apply_ite ACSState.W_full]

theorem getSVec_S_full (st : ACSState) :
    (getSVec st).S_full = (if st.sol_index = 63 then 1 else st.S_full) := by
  simp only [getSVec]
  simp [apply_ite ACSState.S_full]

theorem readSensors_eq_of_priming (st : ACSState) (s : Sample)
    (h : primingReturn st s) :
    readSensors st s = (readSensorsIngest st s, 1) := by
  unfold primingReturn at h
  simp only [readSensors]
  rw [if_pos h]

theorem readSensors_eq_of_not_priming (st : ACSState) (s : Sample)
    (h : ¬ primingReturn st s) :
    readSensors st s =
      (getSVec (getOmega (bdotUpdate (readSensorsIngest st s))),
       nanChecks (getSVec (getOmega (bdotUpdate (readSensorsIngest st s))))) := by
  unfold primingReturn at h
  simp only [readSensors]
  rw [if_neg h]

theorem readSensors_fst_of_priming (st : ACSState) (s : Sample)
    (h : primingReturn st s) :
    (readSensors st s).1 = readSensorsIngest st s := by
  rw [readSensors_eq_of_priming _ _ h]

theorem readSensors_snd_of_priming (st : ACSState) (s : Sample)
    (h : primingReturn st s) :
    (readSensors st s).2 = 1 := by
  rw [readSensors_eq_of_priming _ _ h]

theorem readSensors_fst_of_not_priming (st : ACSState) (s : Sample)
    (h : ¬ primingReturn st s) :
    (readSensors st s).1 =
      getSVec (getOmega (bdotUpdate (readSensorsIngest st s))) := by
  rw [readSensors_eq_of_not_priming _ _ h]

theorem readSensors_snd_of_not_priming (st : ACSState) (s : Sample)
    (h : ¬ primingReturn st s) :
    (readSensors st s).2 =
      nanChecks (getSVec (getOmega (bdotUpdate (readSensorsIngest st s)))) := by
  rw [readSensors_eq_of_not_priming _ _ h]

set_option maxHeartbeats 1600000 in
/-- Closed form of every cursor and full flag after `k` cycles, for any
sample stream: cursors advance with period 64 (field from cycle 1, Bdot and
sun from cycle 2, omega from cycle 3); `B_full` is set at cycle 65,
`S_full` at 66, `W_full` at 67; `Bdot_full` is never set (acs-datagen.h
line 278 sets `B_full` instead). -/
theorem runCycles_scalars (s : ℕ → Sample) : ∀ k : ℕ,
    (runCycles s k).mag_index = (if k = 0 then -1 else ((k : ℤ) - 1) % 64) ∧
    (runCycles s k).bdot_index = (if k ≤ 1 then -1 else ((k : ℤ) - 2) % 64) ∧
    (runCycles s k).omega_index = (if k ≤ 2 then -1 else ((k : ℤ) - 3) % 64) ∧
    (runCycles s k).sol_index = (if k ≤ 1 then -1 else ((k : ℤ) - 2) % 64) ∧
    (runCycles s k).B_full = (if 65 ≤ k then 1 else 0) ∧
    (runCycles s k).Bdot_full = 0 ∧
    (runCycles s k).W_full = (if 67 ≤ k then 1 else 0) ∧
    (runCycles s k).S_full = (if 66 ≤ k then 1 else 0) := by
  intro k
  induction k with
  | zero => refine ⟨rfl, rfl, rfl, rfl, rfl, rfl, rfl, rfl⟩
  | succ k ih =>
    obtain ⟨hm, hb, ho, hs, hB, hBt, hW, hS⟩ := ih
    have hrw : runCycles s (k + 1) = (readSensors (runCycles s k) (s k)).1 := rfl
    rw [hrw]
    by_cases hp : primingReturn (runCycles s k) (s k)
    · have hk : k = 0 := by
        unfold primingReturn at hp
        rw [readSensorsIngest_mag_index, readSensorsIngest_B_full, hm, hB] at hp
        obtain ⟨h1, h2⟩ := hp
        split_ifs at h1 h2 <;> omega
      subst hk
      refine ⟨?_, ?_, ?_, ?_, ?_, ?_, ?_, ?_⟩ <;>
        rw [readSensors_fst_of_priming _ _ hp] <;>
        simp only [readSensorsIngest_mag_index, readSensorsIngest_B_full,
          readSensorsIngest_bdot_index, readSensorsIngest_omega_index,
          readSensorsIngest_sol_index, readSensorsIngest_Bdot_full,
          readSensorsIngest_W_full, readSensorsIngest_S_full,
          hm, hb, ho, hs, hB, hBt, hW, hS] <;>
        (try split_ifs) <;> (try contradiction) <;> omega
    · have hk1 : 1 ≤ k := by
        by_contra hlt
        have hk0 : k = 0 := by omega
        subst hk0
        unfold primingReturn at hp
        rw [readSensorsIngest_mag_index, readSensorsIngest_B_full, hm, hB] at hp
        exact hp (by norm_num)
      refine ⟨?_, ?_, ?_, ?_, ?_, ?_, ?_, ?_⟩ <;>
        rw [readSensors_fst_of_not_priming _ _ hp] <;>
        simp only [readSensorsIngest_mag_index, readSensorsIngest_B_full,
          readSensorsIngest_bdot_index, readSensorsIngest_omega_index,
          readSensorsIngest_sol_index, readSensorsIngest_Bdot_full,
          readSensorsIngest_W_full, readSensorsIngest_S_full,
          bdotUpdate_mag_index, bdotUpdate_B_full, bdotUpdate_bdot_index,
          bdotUpdate_omega_index, bdotUpdate_sol_index, bdotUpdate_Bdot_full,
          bdotUpdate_W_full, bdotUpdate_S_full,
          getOmega_mag_index, getOmega_B_full, getOmega_bdot_index,
          getOmega_omega_index, getOmega_sol_index, getOmega_Bdot_full,
          getOmega_W_full, getOmega_S_full,
          getSVec_mag_index, getSVec_B_full, getSVec_bdot_index,
          getSVec_omega_index, getSVec_sol_index, getSVec_Bdot_full,
          getSVec_W_full, getSVec_S_full,
          hm, hb, ho, hs, hB, hBt, hW, hS] <;>
        (try split_ifs) <;> (try contradiction) <;> omega

/-!  ## Properties of the filter loop  -/

theorem Flt.add_fin (a b : ℚ) : Flt.fin a + Flt.fin b = Flt.fin (a + b) := rfl

theorem Flt.mul_fin (a b : ℚ) : Flt.fin a * Flt.fin b = Flt.fin (a * b) := rfl

/-- Shared shape of the three loop-exit obligations of `besselGo_inv`. -/
theorem besselExit_inv {i : ℤ} {ci : ℕ} (ar : List ℤ) (cr : List ℕ)
    (extra : List ℕ) (hi0 : 0 ≤ i) (hi1 : i < 64) (hci : ci ≤ 63)
    (hextra : ∀ c ∈ extra, c ≤ 63) :
    (∀ j ∈ ar ++ [i], j ∈ ar ∨ (0 ≤ j ∧ j < 64)) ∧
    (∀ c ∈ (cr ++ [ci]) ++ extra, c ∈ cr ∨ c ≤ 63) ∧
    (ar ++ [i]).length ≤ ar.length + (64 - ci) := by
  refine ⟨?_, ?_, ?_⟩
  · intro j hj
    rcases List.mem_append.mp hj with h | h
    · exact Or.inl h
    · simp only [List.mem_singleton] at h; subst h; exact Or.inr ⟨hi0, hi1⟩
  · intro c hc
    rcases List.mem_append.mp hc with h | h
    · rcases List.mem_append.mp h with h2 | h2
      · exact Or.inl h2
      · simp only [List.mem_singleton] at h2; subst h2; exact Or.inr hci
    · exact Or.inr (hextra c h)
  · simp only [List.length_append, List.length_singleton]; omega

/-- Loop invariant of `besselGo`: starting inside the buffer with the
congruence `i = index - coeff_index (mod 64)`, every data-array read lands
in [0, 64), every coefficient read lands in [0, 63] (the wrap-around check
`i == index` short-circuits before `bessel_coeff[64]` could be read), and
at most `64 - ci` further iterations happen. -/
theorem besselGo_inv (K : ℕ → ℚ) (arr : ℤ → Flt) (index : ℤ)
    (hx0 : 0 ≤ index) (hx1 : index < 64) :
    ∀ (fuel : ℕ) (i : ℤ) (ci : ℕ) (val : Flt) (sum : ℚ)
      (ar : List ℤ) (cr : List ℕ),
    0 ≤ i → i < 64 → ci ≤ 63 → (i - index + ci) % 64 = 0 →
    (∀ j ∈ (besselGo K arr index fuel i ci val sum ar cr).arrReads,
        j ∈ ar ∨ (0 ≤ j ∧ j < 64)) ∧
    (∀ c ∈ (besselGo K arr index fuel i ci val sum ar cr).coeffReads,
        c ∈ cr ∨ c ≤ 63) ∧
    (besselGo K arr index fuel i ci val sum ar cr).arrReads.length
      ≤ ar.length + (64 - ci) := by
  intro fuel
  induction fuel with
  | zero =>
    intro i ci val sum ar cr hi0 hi1 hci hcong
    rw [besselGo]
    dsimp only
    set i2 : ℤ := if i - 1 < 0 then 63 else i - 1 with hi2def
    have hb2 : 0 ≤ i2 ∧ i2 < 64 := by rw [hi2def]; split_ifs <;> omega
    have hcong2 : (i2 - index + (ci + 1)) % 64 = 0 := by
      rw [hi2def]; split_ifs <;> omega
    split
    · simpa using besselExit_inv ar cr [] hi0 hi1 hci (by simp)
    · rename_i hne
      have hci2 : ci + 1 ≤ 63 := by omega
      split
      · exact besselExit_inv ar cr [ci + 1] hi0 hi1 hci (by simpa using hci2)
      · exact besselExit_inv ar cr [ci + 1] hi0 hi1 hci (by simpa using hci2)
  | succ n ih =>
    intro i ci val sum ar cr hi0 hi1 hci hcong
    rw [besselGo]
    dsimp only
    set i2 : ℤ := if i - 1 < 0 then 63 else i - 1 with hi2def
    have hb2 : 0 ≤ i2 ∧ i2 < 64 := by rw [hi2def]; split_ifs <;> omega
    have hcong2 : (i2 - index + (ci + 1)) % 64 = 0 := by
      rw [hi2def]; split_ifs <;> omega
    split
    · simpa using besselExit_inv ar cr [] hi0 hi1 hci (by simp)
    · rename_i hne
      have hci2 : ci + 1 ≤ 63 := by omega
      split
      · exact besselExit_inv ar cr [ci + 1] hi0 hi1 hci (by simpa using hci2)
      · obtain ⟨A, B, C⟩ := ih i2 (ci + 1) (val + Flt.fin (K ci) * arr i)
          (sum + K ci) (ar ++ [i]) ((cr ++ [ci]) ++ [ci + 1])
          hb2.1 hb2.2 hci2 hcong2
        refine ⟨?_, ?_, ?_⟩
        · intro j hj
          rcases A j hj with h | h
          · rcases List.mem_append.mp h with h2 | h2
            · exact Or.inl h2
            · simp only [List.mem_singleton] at h2; subst h2
              exact Or.inr ⟨hi0, hi1⟩
          · exact Or.inr h
        · intro c hc
          rcases B c hc with h | h
          · rcases List.mem_append.mp h with h2 | h2
            · rcases List.mem_append.mp h2 with h3 | h3
              · exact Or.inl h3
              · simp only [List.mem_singleton] at h3; subst h3
                exact Or.inr hci
            · simp only [List.mem_singleton] at h2; subst h2
              exact Or.inr hci2
          · exact Or.inr h
        · calc (besselGo K arr index n i2 (ci + 1) (val + Flt.fin (K ci) * arr i)
              (sum + K ci) (ar ++ [i]) ((cr ++ [ci]) ++ [ci + 1])).arrReads.length
              ≤ (ar ++ [i]).length + (64 - (ci + 1)) := C
            _ ≤ ar.length + (64 - ci) := by
                simp only [List.length_append, List.length_singleton]; omega

/-- Loop invariant of `besselGo` on a buffer holding the constant finite
value `c`: the accumulated value is always `c` times the accumulated
coefficient sum, and the coefficient sum is positive (given a kernel that is
positive on the range of indices the loop can read). -/
theorem besselGo_const (K : ℕ → ℚ) (hK : ∀ j, j ≤ 63 → 0 < K j) (c : ℚ)
    (index : ℤ) (hx0 : 0 ≤ index) (hx1 : index < 64) :
    ∀ (fuel : ℕ) (i : ℤ) (ci : ℕ) (val : Flt) (sum : ℚ)
      (ar : List ℤ) (cr : List ℕ),
    0 ≤ i → i < 64 → ci ≤ 63 → (i - index + ci) % 64 = 0 →
    val = Flt.fin (c * sum) → 0 ≤ sum →
    (besselGo K (fun _ => Flt.fin c) index fuel i ci val sum ar cr).val =
      Flt.fin (c *
        (besselGo K (fun _ => Flt.fin c) index fuel i ci val sum ar cr).coeff_sum) ∧
    0 < (besselGo K (fun _ => Flt.fin c) index fuel i ci val sum ar cr).coeff_sum := by
  intro fuel
  induction fuel with
  | zero =>
    intro i ci val sum ar cr hi0 hi1 hci hcong hval hsum
    rw [besselGo]
    dsimp only
    set i2 : ℤ := if i - 1 < 0 then 63 else i - 1 with hi2def
    have hpos : 0 < sum + K ci := by
      have := hK ci hci
      linarith
    have hval2 : val + Flt.fin (K ci) * Flt.fin c = Flt.fin (c * (sum + K ci)) := by
      rw [hval, Flt.mul_fin, Flt.add_fin]; ring_nf
    split
    · exact ⟨hval2, hpos⟩
    · split
      · exact ⟨hval2, hpos⟩
      · exact ⟨hval2, hpos⟩
  | succ n ih =>
    intro i ci val sum ar cr hi0 hi1 hci hcong hval hsum
    rw [besselGo]
    dsimp only
    set i2 : ℤ := if i - 1 < 0 then 63 else i - 1 with hi2def
    have hb2 : 0 ≤ i2 ∧ i2 < 64 := by rw [hi2def]; split_ifs <;> omega
    have hcong2 : (i2 - index + (ci + 1)) % 64 = 0 := by
      rw [hi2def]; split_ifs <;> omega
    have hpos : 0 < sum + K ci := by
      have := hK ci hci
      linarith
    have hval2 : val + Flt.fin (K ci) * Flt.fin c = Flt.fin (c * (sum + K ci)) := by
      rw [hval, Flt.mul_fin, Flt.add_fin]; ring_nf
    split
    · exact ⟨hval2, hpos⟩
    · rename_i hne
      have hci2 : ci + 1 ≤ 63 := by omega
      split
      · exact ⟨hval2, hpos⟩
      · exact ih i2 (ci + 1) (val + Flt.fin (K ci) * Flt.fin c) (sum + K ci)
          (ar ++ [i]) ((cr ++ [ci]) ++ [ci + 1])
          hb2.1 hb2.2 hci2 hcong2 hval2 (le_of_lt hpos)

theorem Flt.div_fin (a b : ℚ) (hb : b ≠ 0) :
    Flt.fin a / Flt.fin b = Flt.fin (a / b) := by
  show Flt.div (Flt.fin a) (Flt.fin b) = Flt.fin (a / b)
  simp only [Flt.div]
  rw [if_neg hb]

/-- The installed kernel (order 3, cutoff 5) is positive at each position a
filter walk can read. -/
theorem progCoeff_pos_fin : ∀ j : Fin 64, 0 < progCoeff (j : ℕ) := by decide!

theorem progCoeff_pos (j : ℕ) (hj : j ≤ 63) : 0 < progCoeff j := by
  simpa using progCoeff_pos_fin ⟨j, by omega⟩

/-!  ## Properties of the kernel derivation (calculateBessel)  -/

theorem cFactorial_pos (n : ℕ) : 0 < cFactorial n := by
  induction n with
  | zero => norm_num [cFactorial]
  | succ k ih =>
    rw [cFactorial]
    positivity

theorem besselNumCoeff_pos (order i : ℕ) : 0 < besselNumCoeff order i := by
  unfold besselNumCoeff
  have h1 := cFactorial_pos (2 * order - i)
  have h2 := cFactorial_pos i
  have h3 := cFactorial_pos (order - i)
  positivity

/-- The transfer-polynomial loop only grows the accumulator when the
coefficients, the evaluation point and the running power are nonnegative. -/
theorem transferGo_ge (cs : List ℚ) : ∀ (s val pow : ℚ),
    (∀ c ∈ cs, 0 ≤ c) → 0 ≤ s → 0 ≤ pow → val ≤ transferGo cs s val pow := by
  induction cs with
  | nil => intro s val pow _ _ _; simp [transferGo]
  | cons c rest ih =>
    intro s val pow hcs hs hpow
    rw [transferGo]
    calc val ≤ val + c * pow := by
          have hc : 0 ≤ c := hcs c (by simp)
          nlinarith
      _ ≤ transferGo rest s (val + c * pow) (pow * s) :=
          ih s _ _ (fun d hd => hcs d (by simp [hd])) hs (by positivity)

/-- The transfer-polynomial loop is monotone in the evaluation point, the
accumulator and the running power (coefficients nonnegative). -/
theorem transferGo_mono (cs : List ℚ) : ∀ (s1 s2 v1 v2 p1 p2 : ℚ),
    (∀ c ∈ cs, 0 ≤ c) → 0 ≤ s1 → s1 ≤ s2 → v1 ≤ v2 → 0 ≤ p1 → p1 ≤ p2 →
    transferGo cs s1 v1 p1 ≤ transferGo cs s2 v2 p2 := by
  induction cs with
  | nil => intro s1 s2 v1 v2 p1 p2 _ _ _ hv _ _; simpa [transferGo] using hv
  | cons c rest ih =>
    intro s1 s2 v1 v2 p1 p2 hcs hs1 hs hv hp1 hp
    rw [transferGo, transferGo]
    have hc : 0 ≤ c := hcs c (by simp)
    exact ih s1 s2 _ _ _ _ (fun d hd => hcs d (by simp [hd])) hs1 hs
      (by nlinarith) (by positivity) (by nlinarith)

/-- The written part of the kernel, as the source computes it. -/
theorem calculateBessel_eq (size order : ℕ) (cutoff : ℚ) (j : ℕ)
    (hj : j < size) :
    calculateBessel size order cutoff j =
      besselNumCoeff (min order 5) 0 /
        transferGo ((List.range (min order 5 + 1)).map (besselNumCoeff (min order 5)))
          ((j : ℚ) / cutoff) 0 1 := by
  unfold calculateBessel
  rw [if_pos hj]

/-- Positivity of the transfer value at nonnegative evaluation points. -/
theorem transferValue_pos (order : ℕ) (s : ℚ) (hs : 0 ≤ s) :
    0 < transferGo ((List.range (order + 1)).map (besselNumCoeff order)) s 0 1 := by
  rw [List.range_succ_eq_map, List.map_cons, transferGo]
  have h0 := besselNumCoeff_pos order 0
  calc (0 : ℚ) < besselNumCoeff order 0 := h0
    _ = 0 + besselNumCoeff order 0 * 1 := by ring
    _ ≤ _ := by
        apply transferGo_ge
        · intro c hc
          simp only [List.mem_map] at hc
          obtain ⟨a, _, rfl⟩ := hc
          exact le_of_lt (besselNumCoeff_pos order _)
        · exact hs
        · norm_num [hs]

theorem besselCoeffList_nonneg (order : ℕ) :
    ∀ c ∈ (List.range (order + 1)).map (besselNumCoeff order), 0 ≤ c := by
  intro c hc
  simp only [List.mem_map] at hc
  obtain ⟨a, _, rfl⟩ := hc
  exact le_of_lt (besselNumCoeff_pos order _)

/-- Claim C9: for every filter order (clamped to at most 5 by the source)
and every positive cutoff, the kernel computed by `calculateBessel` is
monotonically non-increasing across positions 0..63; in particular
weight[0] >= weight[k] for all k.  (Exact-arithmetic model of the float
computation.) -/
theorem besselKernel_monotone (order : ℕ) (cutoff : ℚ) (hcut : 0 < cutoff) :
    (∀ j : ℕ, j + 1 < 64 →
      calculateBessel 64 order cutoff (j + 1) ≤ calculateBessel 64 order cutoff j) ∧
    (∀ k : ℕ, k < 64 →
      calculateBessel 64 order cutoff k ≤ calculateBessel 64 order cutoff 0) := by
  have key : ∀ a b : ℕ, a ≤ b → b < 64 →
      calculateBessel 64 order cutoff b ≤ calculateBessel 64 order cutoff a := by
    intro a b hab hb
    rw [calculateBessel_eq 64 order cutoff a (by omega),
      calculateBessel_eq 64 order cutoff b (by omega)]
    set n := min order 5 with hn
    have hTa := transferValue_pos n ((a : ℚ) / cutoff) (by positivity)
    have hTb := transferValue_pos n ((b : ℚ) / cutoff) (by positivity)
    have hmono : transferGo ((List.range (n + 1)).map (besselNumCoeff n))
        ((a : ℚ) / cutoff) 0 1 ≤
        transferGo ((List.range (n + 1)).map (besselNumCoeff n))
          ((b : ℚ) / cutoff) 0 1 := by
      apply transferGo_mono _ _ _ _ _ _ _ (besselCoeffList_nonneg n)
        (by positivity) _ le_rfl (by norm_num) le_rfl
      have : (a : ℚ) ≤ (b : ℚ) := by exact_mod_cast hab
      exact div_le_div_of_nonneg_right this (le_of_lt hcut)
    have hc0 := besselNumCoeff_pos n 0
    exact div_le_div_of_nonneg_left (le_of_lt hc0) hTa hmono
  refine ⟨fun j hj => key j (j + 1) (by omega) hj,
    fun k hk => key 0 k (by omega) hk⟩

/-!  ## The fault check  -/

theorem nanChecks_eq_neg_one_iff (st : ACSState) :
    nanChecks st = -1 ↔
      ((st.x_g_B st.mag_index).isnan = true ∨
       (st.y_g_B st.mag_index).isnan = true ∨
       (st.z_g_B st.mag_index).isnan = true ∨
       (st.x_g_W st.omega_index).isnan = true ∨
       (st.y_g_W st.omega_index).isnan = true ∨
       (st.z_g_W st.omega_index).isnan = true ∨
       (st.x_g_S st.sol_index).isnan = true ∨
       (st.y_g_S st.sol_index).isnan = true ∨
       (st.z_g_S st.sol_index).isnan = true) := by
  unfold nanChecks
  split_ifs <;> simp_all

theorem nanChecks_cases (st : ACSState) :
    nanChecks st = 1 ∨ nanChecks st = -1 := by
  unfold nanChecks
  split_ifs <;> simp

/-!  ## NORMALIZE on the null vector  -/

theorem NORMALIZE_null (dx dy dz : Flt) :
    NORMALIZE dx dy dz (Flt.fin 0) (Flt.fin 0) (Flt.fin 0) =
      (Flt.fin 0, Flt.fin 0, Flt.fin 0) := by
  simp only [NORMALIZE]
  rw [if_pos (by decide!)]
  decide!

theorem NORMALIZE_MATH_null (dx dy dz : Flt) :
    NORMALIZE_MATH dx dy dz (Flt.fin 0) (Flt.fin 0) (Flt.fin 0) =
      (Flt.nan, Flt.nan, Flt.nan) := by
  simp only [NORMALIZE_MATH]
  rw [if_pos (by decide!)]
  decide!

/-!  ## Claim theorems  -/

/-- Claim C8 (confirmed): applying the Bessel filter (`dfilterBessel` and
`ffilterBessel` with the kernel the program installs) at any index of a
buffer uniformly filled with the finite constant `c` returns exactly that
constant: the normalized weighted average has DC gain 1.  (Exact-arithmetic
model of the float computation.) -/
theorem besselFilter_dc_gain (c : ℚ) (idx : Fin 64) :
    dfilterBessel progCoeff (fun _ => Flt.fin c) ((idx : ℕ) : ℤ) = Flt.fin c ∧
    ffilterBessel progCoeff (fun _ => Flt.fin c) ((idx : ℕ) : ℤ) = Flt.fin c := by
  have hx0 : (0 : ℤ) ≤ ((idx : ℕ) : ℤ) := Int.natCast_nonneg _
  have hx1 : ((idx : ℕ) : ℤ) < 64 := by exact_mod_cast idx.2
  have h := besselGo_const progCoeff progCoeff_pos c ((idx : ℕ) : ℤ) hx0 hx1
    65 ((idx : ℕ) : ℤ) 0 (Flt.fin 0) 0 [] [] hx0 hx1 (by omega) (by omega)
    (by rw [mul_zero]) le_rfl
  constructor
  · unfold dfilterBessel besselTrace
    rw [h.1, Flt.div_fin _ _ (ne_of_gt h.2),
      mul_div_cancel_right₀ c (ne_of_gt h.2)]
  · unfold ffilterBessel besselTrace
    rw [h.1, Flt.div_fin _ _ (ne_of_gt h.2),
      mul_div_cancel_right₀ c (ne_of_gt h.2)]

/-- Claim C10 (confirmed): for every start index in [0, 64), the filter
loop shared by `dfilterBessel` and `ffilterBessel` performs at most 64
iterations, reads the data array only at indices in [0, 64), and reads the
coefficient array only at indices in [0, 64): the `i == index` wrap check
fires, by short-circuit ordering, before `bessel_coeff[64]` would be read.
Holds for any kernel contents. -/
theorem besselFilter_term_bounds (K : ℕ → ℚ) (arr : ℤ → Flt) (idx : Fin 64) :
    (besselTrace K arr ((idx : ℕ) : ℤ)).arrReads.length ≤ 64 ∧
    (∀ j ∈ (besselTrace K arr ((idx : ℕ) : ℤ)).arrReads, 0 ≤ j ∧ j < 64) ∧
    (∀ c ∈ (besselTrace K arr ((idx : ℕ) : ℤ)).coeffReads, c < 64) ∧
    dfilterBessel K arr ((idx : ℕ) : ℤ) =
      (besselTrace K arr ((idx : ℕ) : ℤ)).val /
        Flt.fin (besselTrace K arr ((idx : ℕ) : ℤ)).coeff_sum ∧
    ffilterBessel K arr ((idx : ℕ) : ℤ) =
      (besselTrace K arr ((idx : ℕ) : ℤ)).val /
        Flt.fin (besselTrace K arr ((idx : ℕ) : ℤ)).coeff_sum := by
  have hx0 : (0 : ℤ) ≤ ((idx : ℕ) : ℤ) := Int.natCast_nonneg _
  have hx1 : ((idx : ℕ) : ℤ) < 64 := by exact_mod_cast idx.2
  have h := besselGo_inv K arr ((idx : ℕ) : ℤ) hx0 hx1
    65 ((idx : ℕ) : ℤ) 0 (Flt.fin 0) 0 [] [] hx0 hx1 (by omega) (by omega)
  refine ⟨by simpa using h.2.2, fun j hj => ?_, fun c hc => ?_, rfl, rfl⟩
  · rcases h.1 j hj with hin | hb
    · simp at hin
    · exact hb
  · rcases h.2.1 c hc with hin | hb
    · simp at hin
    · omega

/-- Witness for claim C9's theorem at the program's configuration
(order 3, cutoff 5): the hypothesis `0 < cutoff` holds and adjacent
weights are ordered. -/
theorem besselKernel_monotone_wit :
    (0 : ℚ) < 5 ∧ calculateBessel 64 3 5 1 ≤ calculateBessel 64 3 5 0 :=
  ⟨by norm_num, (besselKernel_monotone 3 5 (by norm_num)).2 1 (by norm_num)⟩

/-- Claim C1 (amended): for any sample stream, each buffer's full flag
stays 0 through that buffer's first 64 writes and is set at the start of
its 65th write, i.e. at cycle 65 for the field buffer, cycle 66 for the
sun-vector buffer and cycle 67 for the angular-velocity buffer, remaining
set afterwards; the field-rate buffer's own flag `Bdot_full` is never set,
because its wrap check (acs-datagen.h line 278) sets `B_full` instead. -/
theorem readSensors_full_flags (s : ℕ → Sample) (k : ℕ) :
    (runCycles s k).B_full = (if 65 ≤ k then 1 else 0) ∧
    (runCycles s k).Bdot_full = 0 ∧
    (runCycles s k).W_full = (if 67 ≤ k then 1 else 0) ∧
    (runCycles s k).S_full = (if 66 ≤ k then 1 else 0) := by
  obtain ⟨_, _, _, _, hB, hBt, hW, hS⟩ := runCycles_scalars s k
  exact ⟨hB, hBt, hW, hS⟩

/-- Counterexample to claim C1 as stated: after exactly 64 cycles (64
writes into the field buffer) `B_full` is still 0, and after 65 cycles
(64 writes into the field-rate buffer) `Bdot_full` is still 0. -/
theorem readSensors_full_flags_cex :
    (runCycles zeroStream 64).B_full = 0 ∧
    (runCycles zeroStream 65).Bdot_full = 0 := by
  decide!

/-- Claim C4 (amended): the per-cycle operation returns only the two codes
1 (both for a primed-but-incomplete cycle and for a successful cycle) and
-1 (NaN fault detected); no other value and no other reporting mechanism
exists, but insufficient history is not distinguishable from success. -/
theorem readSensors_status_codes (st : ACSState) (s : Sample) :
    (readSensors st s).2 = 1 ∨ (readSensors st s).2 = -1 := by
  by_cases h : primingReturn st s
  · rw [readSensors_snd_of_priming _ _ h]
    left
    rfl
  · rw [readSensors_snd_of_not_priming _ _ h]
    exact nanChecks_cases _

/-- Counterexample to claim C4 as stated: with the doubling field stream,
cycle 1 (which has insufficient history: after it the field-rate buffer is
still untouched) and cycle 3 (a fully successful cycle: it produces the
first angular-velocity sample) both return the same code 1, so a caller
cannot distinguish them by the return value. -/
theorem readSensors_status_codes_cex :
    (readSensors initState (growStream 0)).2 = 1 ∧
    (runCycles growStream 1).bdot_index = -1 ∧
    (readSensors (runCycles growStream 2) (growStream 2)).2 = 1 ∧
    (runCycles growStream 3).omega_index = 0 := by
  decide!

/-- Claim C5 (amended): from a fresh state, for any sample stream, cycle 1
returns 1 having advanced only the field cursor; cycle 2 is the first
cycle that produces a field-rate sample AND the first that produces a
sun-vector sample; cycle 3 is the first cycle that produces an
angular-velocity sample. -/
theorem readSensors_startup_schedule (s : ℕ → Sample) :
    (readSensors initState (s 0)).2 = 1 ∧
    (runCycles s 1).mag_index = 0 ∧
    (runCycles s 1).bdot_index = -1 ∧
    (runCycles s 1).omega_index = -1 ∧
    (runCycles s 1).sol_index = -1 ∧
    (runCycles s 2).bdot_index = 0 ∧
    (runCycles s 2).sol_index = 0 ∧
    (runCycles s 2).omega_index = -1 ∧
    (runCycles s 3).omega_index = 0 := by
  obtain ⟨hm1, hb1, ho1, hs1, _, _, _, _⟩ := runCycles_scalars s 1
  obtain ⟨_, hb2, ho2, hs2, _, _, _, _⟩ := runCycles_scalars s 2
  obtain ⟨_, _, ho3, _, _, _, _, _⟩ := runCycles_scalars s 3
  have hp : primingReturn initState (s 0) := by
    unfold primingReturn
    rw [readSensorsIngest_mag_index, readSensorsIngest_B_full]
    norm_num [initState]
  exact ⟨readSensors_snd_of_priming _ _ hp,
    by simpa using hm1, by simpa using hb1, by simpa using ho1,
    by simpa using hs1, by simpa using hb2, by simpa using hs2,
    by simpa using ho2, by simpa using ho3⟩

/-- Counterexample to claim C5 as stated: the sun-vector buffer receives
its first sample at cycle 2 (its cursor moves from -1 to 0), not at
cycle 3 as claimed. -/
theorem readSensors_startup_schedule_cex :
    (runCycles zeroStream 1).sol_index = -1 ∧
    (runCycles zeroStream 2).sol_index = 0 := by
  decide!

/-- Claim C2 (amended): once past the priming return, `readSensors`
returns -1 exactly when one of the nine components it actually inspects
(the field, angular-velocity and sun-vector components at the current
cursors - NOT the field-rate, and by `isnan` only, so infinities pass) is
NaN. -/
theorem readSensors_fault_iff (st : ACSState) (s : Sample)
    (h : ¬ primingReturn st s) :
    ((readSensors st s).2 = -1 ↔
      (((readSensors st s).1.x_g_B (readSensors st s).1.mag_index).isnan = true ∨
       ((readSensors st s).1.y_g_B (readSensors st s).1.mag_index).isnan = true ∨
       ((readSensors st s).1.z_g_B (readSensors st s).1.mag_index).isnan = true ∨
       ((readSensors st s).1.x_g_W (readSensors st s).1.omega_index).isnan = true ∨
       ((readSensors st s).1.y_g_W (readSensors st s).1.omega_index).isnan = true ∨
       ((readSensors st s).1.z_g_W (readSensors st s).1.omega_index).isnan = true ∨
       ((readSensors st s).1.x_g_S (readSensors st s).1.sol_index).isnan = true ∨
       ((readSensors st s).1.y_g_S (readSensors st s).1.sol_index).isnan = true ∨
       ((readSensors st s).1.z_g_S (readSensors st s).1.sol_index).isnan = true)) := by
  rw [readSensors_snd_of_not_priming _ _ h, readSensors_fst_of_not_priming _ _ h]
  exact nanChecks_eq_neg_one_iff _

/-- Witness for claim C2's theorem: the state after one zero-sample cycle
is past priming, and the equivalence holds there. -/
theorem readSensors_fault_iff_wit :
    (¬ primingReturn (runCycles zeroStream 1) zeroSample) ∧
    (((readSensors (runCycles zeroStream 1) zeroSample).2 = -1 ↔
      (((readSensors (runCycles zeroStream 1) zeroSample).1.x_g_B
          (readSensors (runCycles zeroStream 1) zeroSample).1.mag_index).isnan = true ∨
       ((readSensors (runCycles zeroStream 1) zeroSample).1.y_g_B
          (readSensors (runCycles zeroStream 1) zeroSample).1.mag_index).isnan = true ∨
       ((readSensors (runCycles zeroStream 1) zeroSample).1.z_g_B
          (readSensors (runCycles zeroStream 1) zeroSample).1.mag_index).isnan = true ∨
       ((readSensors (runCycles zeroStream 1) zeroSample).1.x_g_W
          (readSensors (runCycles zeroStream 1) zeroSample).1.omega_index).isnan = true ∨
       ((readSensors (runCycles zeroStream 1) zeroSample).1.y_g_W
          (readSensors (runCycles zeroStream 1) zeroSample).1.omega_index).isnan = true ∨
       ((readSensors (runCycles zeroStream 1) zeroSample).1.z_g_W
          (readSensors (runCycles zeroStream 1) zeroSample).1.omega_index).isnan = true ∨
       ((readSensors (runCycles zeroStream 1) zeroSample).1.x_g_S
          (readSensors (runCycles zeroStream 1) zeroSample).1.sol_index).isnan = true ∨
       ((readSensors (runCycles zeroStream 1) zeroSample).1.y_g_S
          (readSensors (runCycles zeroStream 1) zeroSample).1.sol_index).isnan = true ∨
       ((readSensors (runCycles zeroStream 1) zeroSample).1.z_g_S
          (readSensors (runCycles zeroStream 1) zeroSample).1.sol_index).isnan = true))) :=
  ⟨by decide!, readSensors_fault_iff _ _ (by decide!)⟩

/-- Counterexample to claim C2 as stated: from `nanPoisonState` a zero
sample drives the freshly written field-rate x-component to NaN
(Inf - Inf), yet the cycle returns the success code 1: the field-rate is
never inspected, and the Inf stored in the field buffer also passes the
`isnan`-only field check. -/
theorem readSensors_fault_cex :
    (readSensors nanPoisonState zeroSample).2 = 1 ∧
    ((readSensors nanPoisonState zeroSample).1.x_g_Bt
        (readSensors nanPoisonState zeroSample).1.bdot_index).isnan = true ∧
    ((readSensors nanPoisonState zeroSample).1.x_g_B
        (readSensors nanPoisonState zeroSample).1.mag_index) = Flt.inf := by
  decide!

/-- Claim C3 (amended): every data read of the filter walk stays inside
the array bounds [0, 64) for any kernel and any start index, but the walk
is NOT confined to [0, cursor] of a not-yet-full buffer: with the
program's kernel the truncation threshold never fires within 64 positions,
so already the very first walk (start index 0) reads slot 63; moreover on
the first post-priming cycle the fault check indexes the angular-velocity
buffer at -1, before any angular-velocity sample exists. -/
theorem besselWalk_read_bounds (K : ℕ → ℚ) (arr : ℤ → Flt) (idx : Fin 64) :
    (∀ j ∈ (besselTrace K arr ((idx : ℕ) : ℤ)).arrReads, 0 ≤ j ∧ j < 64) ∧
    (63 : ℤ) ∈ (besselTrace progCoeff (fun _ => Flt.fin 0) 0).arrReads ∧
    (runCycles zeroStream 2).omega_index = -1 := by
  have hx0 : (0 : ℤ) ≤ ((idx : ℕ) : ℤ) := Int.natCast_nonneg _
  have hx1 : ((idx : ℕ) : ℤ) < 64 := by exact_mod_cast idx.2
  have h := besselGo_inv K arr ((idx : ℕ) : ℤ) hx0 hx1
    65 ((idx : ℕ) : ℤ) 0 (Flt.fin 0) 0 [] [] hx0 hx1 (by omega) (by omega)
  refine ⟨fun j hj => ?_, by decide!, by decide!⟩
  rcases h.1 j hj with hin | hb
  · simp at hin
  · exact hb

/-- Counterexample to claim C3 as stated: after the very first cycle the
field buffer is not full and its cursor is 0, yet the Bessel walk the
cycle performed at index 0 (its reads depend only on the kernel and the
start index, not on the stored values) touched slot 63, far beyond the
cursor. -/
theorem besselWalk_read_bounds_cex :
    (runCycles zeroStream 1).mag_index = 0 ∧
    (runCycles zeroStream 1).B_full = 0 ∧
    (63 : ℤ) ∈ (besselTrace progCoeff
      (runCycles zeroStream 1).x_g_B 0).arrReads := by
  decide!

/-- Claim C6 (amended): with smoothing disabled (identity kernel) and the
field-rate history Bdot[t-1] = (0,0,1), Bdot[t] = (1,0,0), `getOmega`
writes exactly cross(Bdot[t], Bdot[t-1]) * F / 1 = (0,-1,0) * F with
F = 10 Hz, i.e. the vector (0, -10, 0). -/
theorem getOmega_bdot_estimate :
    (getOmega bdotTestState).x_g_W 1 = Flt.fin 0 ∧
    (getOmega bdotTestState).y_g_W 1 = Flt.fin (-10) ∧
    (getOmega bdotTestState).z_g_W 1 = Flt.fin 0 := by
  decide!

/-- Counterexample to claim C6 as stated: on the claim's inputs the
y-component of the produced angular velocity is -F = -10, not +F = +10 as
claimed; cross((1,0,0),(0,0,1)) = (0,-1,0), not (0,1,0). -/
theorem getOmega_bdot_estimate_cex :
    (getOmega bdotTestState).y_g_W 1 = Flt.fin (-10) ∧
    ¬ (getOmega bdotTestState).y_g_W 1 = Flt.fin 10 := by
  decide!

/-- Claim C7 (amended): `NORMALIZE` on the null vector returns the null
vector (no NaN or Inf) with the bit-level inverse square root (the build's
default, whose guess on input 0 is a finite positive value); with the
MATH_SQRT library implementation, `1.0/sqrt(0) = +Inf` passes the `!= 0`
guard and `0 * Inf = NaN` is written into every destination component.
In the exact-arithmetic model the single- and double-precision instances
coincide; both use the same single-precision `q2isqrt` in the source. -/
theorem normalize_null_vector :
    (∀ dx dy dz : Flt, NORMALIZE dx dy dz (Flt.fin 0) (Flt.fin 0) (Flt.fin 0) =
      (Flt.fin 0, Flt.fin 0, Flt.fin 0)) ∧
    (∀ dx dy dz : Flt, NORMALIZE_MATH dx dy dz (Flt.fin 0) (Flt.fin 0) (Flt.fin 0) =
      (Flt.nan, Flt.nan, Flt.nan)) :=
  ⟨NORMALIZE_null, NORMALIZE_MATH_null⟩

/-- Counterexample to claim C7 as stated: with the library-sqrt
implementation, normalizing the null vector writes NaN into the
destination instead of the null vector. -/
theorem normalize_null_vector_cex :
    NORMALIZE_MATH (Flt.fin 1) (Flt.fin 2) (Flt.fin 3)
        (Flt.fin 0) (Flt.fin 0) (Flt.fin 0) = (Flt.nan, Flt.nan, Flt.nan) ∧
    Flt.nan.isnan = true := by
  constructor
  · exact NORMALIZE_MATH_null _ _ _
  · rfl
